import Mathlib

/-!
Verification of the zureshot recording pipeline against its specification.

The definitions below are shallow embeddings of the Rust source:
* `capture.rs` — the `StreamOutput` delegate (`stream:didOutputSampleBuffer:ofType:`
  and `append_audio`), modelled as a pure transition function on `DelegateState`.
* `commands.rs` — the recording coordinator state (`RecordingState`) and the
  `pause_recording` / `resume_recording` / `do_start_recording` /
  `get_recording_status` / `do_stop_recording` state logic.
* `writer.rs` / `commands.rs` — the even-dimension rounding of output sizes.
* `cursor.rs` — `CursorTracker::stop` (sort of the event buffer).
* `zoom.rs` — the `Spring` oscillator and one iteration of `zoom_thread`'s
  update loop, over exact rationals in place of `f64`.

Machine integers are modelled as `Int`/`Nat`: every arithmetic operation the
source performs on them (`i128` cross-multiplication of an `i64` by an `i64`,
`u64` counters) is overflow-free at the bit widths involved, so the unbounded
types are faithful.  `f64` values in the zoom controller are modelled as exact
rationals (`ℚ`); comparisons against `sqrt` of a sum of squares are embedded by
comparing squares, which is equivalent over the reals for the non-negative
thresholds involved.
-/

namespace Zureshot

/-! ## Data model: CMTime, sample buffers, delegate state (capture.rs) -/

/-- A `CMTime` presentation timestamp: `value` is an `i64` numerator,
`timescale` an `i32` denominator (stored in the delegate as an `i64`). -/
structure CMTimeQ where
  value : Int
  timescale : Int
deriving DecidableEq, Repr

/-- One incoming `CMSampleBuffer` together with the environment facts the
delegate observes while handling it: the stream output type
(0 = screen, 1 = system audio, 2 = microphone), the buffer's validity and
data-ready flags, whether an image surface is attached, its PTS, whether the
targeted `AVAssetWriterInput` answers `isReadyForMoreMediaData`, and the
result `appendSampleBuffer` would return. -/
structure Sample where
  outputType : Nat
  isValid : Bool
  dataIsReady : Bool
  hasImage : Bool
  pts : CMTimeQ
  inputReady : Bool
  appendOk : Bool
deriving DecidableEq, Repr

/-- The mutable ivars of the `StreamOutput` delegate (`StreamOutputIvars` in
capture.rs), plus ghost fields recording observable effects: the PTS the
writer session was started at (`startSessionAtSourceTime`), and the lists of
PTS values appended to the video, system-audio and microphone inputs. -/
structure DelegateState where
  hasAudioInput : Bool
  hasMicInput : Bool
  sessionStarted : Bool
  errorLogged : Bool
  frameCount : Nat
  droppedCount : Nat
  lastPtsValue : Int
  lastPtsTimescale : Int
  ptsSkipCount : Nat
  paused : Bool
  sessionStartPts : Option CMTimeQ
  videoAppends : List CMTimeQ
  audioAppends : List CMTimeQ
  micAppends : List CMTimeQ
deriving DecidableEq, Repr

/-- Model of `StreamOutput::new_with` — the freshly initialised delegate state
(capture.rs lines 288-301). -/
def DelegateState.new (hasAudio hasMic paused : Bool) : DelegateState where
  hasAudioInput := hasAudio
  hasMicInput := hasMic
  sessionStarted := false
  errorLogged := false
  frameCount := 0
  droppedCount := 0
  lastPtsValue := -1
  lastPtsTimescale := 0
  ptsSkipCount := 0
  paused := paused
  sessionStartPts := none
  videoAppends := []
  audioAppends := []
  micAppends := []

/-- Model of `StreamOutputIvars::dropped_inc`. -/
def droppedInc (s : DelegateState) : DelegateState :=
  { s with droppedCount := s.droppedCount + 1 }

/-- The one-shot `session_started.swap(true)` + `startSessionAtSourceTime:`
sequence (capture.rs lines 181-189 and 266-271). -/
def startSessionIfNeeded (s : DelegateState) (pts : CMTimeQ) : DelegateState :=
  if s.sessionStarted then s
  else { s with sessionStarted := true, sessionStartPts := some pts }

/-- Which writer input an audio sample is routed to. -/
inductive AudioTarget
  | system
  | mic
deriving DecidableEq, Repr

/-- Model of `StreamOutput::append_audio` (capture.rs lines 254-279): validity and
data-ready checks, the one-shot session start at this sample's PTS, then an
append when the input is ready.  The append result (`_ok`) is ignored. -/
def append_audio (s : DelegateState) (x : Sample) (target : AudioTarget) : DelegateState :=
  if !x.isValid then s
  else if !x.dataIsReady then s
  else
    let s1 := startSessionIfNeeded s x.pts
    if x.inputReady then
      match target with
      | .system => { s1 with audioAppends := s1.audioAppends ++ [x.pts] }
      | .mic => { s1 with micAppends := s1.micAppends ++ [x.pts] }
    else s1

/-- The video-append step of the delegate (capture.rs lines 191-232): if the
video input is ready and `appendSampleBuffer` succeeds, update `last_pts` and
the frame counter; on failure record `error_logged` and count a drop; when
the input is not ready, count a drop. -/
def appendVideo (s1 : DelegateState) (x : Sample) : DelegateState :=
  if x.inputReady then
    if x.appendOk then
      { s1 with
        lastPtsValue := x.pts.value
        lastPtsTimescale := x.pts.timescale
        frameCount := s1.frameCount + 1
        videoAppends := s1.videoAppends ++ [x.pts] }
    else droppedInc { s1 with errorLogged := true }
  else droppedInc s1

/-- The screen-frame path of the delegate (capture.rs lines 123-232):
buffer validation, status-frame skip, PTS positivity check, cross-multiplied
monotonicity check (in `i128`, modelled by `Int`), one-shot session start,
then the append step. -/
def handleVideo (s : DelegateState) (x : Sample) : DelegateState :=
  if !x.isValid then droppedInc s
  else if !x.dataIsReady then droppedInc s
  else if !x.hasImage then s
  else if x.pts.value ≤ 0 ∨ x.pts.timescale ≤ 0 then droppedInc s
  else if 0 ≤ s.lastPtsValue ∧ 0 < s.lastPtsTimescale ∧
      x.pts.value * s.lastPtsTimescale ≤ s.lastPtsValue * x.pts.timescale then
    droppedInc { s with ptsSkipCount := s.ptsSkipCount + 1 }
  else
    appendVideo (startSessionIfNeeded s x.pts) x

/-- The delegate method `stream:didOutputSampleBuffer:ofType:`
(capture.rs lines 94-233): paused check, routing by output type
(1 = system audio, 2 = microphone, anything else falls through to the screen
path, as in the source), then the audio or video handler. -/
def stream_didOutputSampleBuffer_ofType (s : DelegateState) (x : Sample) : DelegateState :=
  if s.paused then s
  else if x.outputType = 1 then
    if s.hasAudioInput then append_audio s x .system else s
  else if x.outputType = 2 then
    if s.hasMicInput then append_audio s x .mic else s
  else handleVideo s x

/-- Process a whole sequence of samples delivered on the serial capture queue. -/
def processSamples (s : DelegateState) (xs : List Sample) : DelegateState :=
  xs.foldl stream_didOutputSampleBuffer_ofType s

/-! ## Rational order on PTS values -/

/-- PTS `a` is strictly before `b` in rational order (`a.value/a.timescale <
b.value/b.timescale`), compared by cross-multiplication exactly as the
delegate does.  Sound when both timescales are positive. -/
def ptsLt (a b : CMTimeQ) : Prop :=
  a.value * b.timescale < b.value * a.timescale

instance : DecidableRel ptsLt := fun a b =>
  inferInstanceAs (Decidable (a.value * b.timescale < b.value * a.timescale))

/-- A list of PTS values that is strictly increasing in rational order. -/
def StrictPts (l : List CMTimeQ) : Prop :=
  l.Chain' ptsLt

/-- The `last_pts_value` / `last_pts_timescale` atomics hold exactly the last
appended PTS — or the `-1 / 0` initial values when nothing was appended —
and every appended PTS has positive value and timescale. -/
def lastMatches : Option CMTimeQ → Int → Int → Prop
  | none, v, t => v = -1 ∧ t = 0
  | some p, v, t => v = p.value ∧ t = p.timescale ∧ 0 < p.value ∧ 0 < p.timescale

instance : ∀ (o : Option CMTimeQ) (v t : Int), Decidable (lastMatches o v t)
  | none, v, t => inferInstanceAs (Decidable (v = -1 ∧ t = 0))
  | some p, v, t => inferInstanceAs (Decidable (v = p.value ∧ t = p.timescale ∧
      0 < p.value ∧ 0 < p.timescale))

/-- Linking invariant between the appended-PTS ghost list and the
`last_pts_value` / `last_pts_timescale` atomics: the atomics hold exactly the
last appended PTS (or the `-1 / 0` initial values), every appended PTS has
positive value and timescale, and the appended list is strictly increasing. -/
def DelegateInv (s : DelegateState) : Prop :=
  StrictPts s.videoAppends ∧
  lastMatches s.videoAppends.getLast? s.lastPtsValue s.lastPtsTimescale

instance instDecStrictPts : (l : List CMTimeQ) → Decidable (StrictPts l)
  | [] => isTrue List.chain'_nil
  | [a] => isTrue (List.chain'_singleton a)
  | a :: b :: rest =>
    match inferInstanceAs (Decidable (ptsLt a b)), instDecStrictPts (b :: rest) with
    | isTrue h1, isTrue h2 => isTrue (List.chain'_cons.mpr ⟨h1, h2⟩)
    | isFalse h1, _ => isFalse (fun hc => h1 (List.chain'_cons.mp hc).1)
    | _, isFalse h2 => isFalse (fun hc => h2 (List.chain'_cons.mp hc).2)

instance (s : DelegateState) : Decidable (DelegateInv s) :=
  inferInstanceAs (Decidable (StrictPts s.videoAppends ∧
    lastMatches s.videoAppends.getLast? s.lastPtsValue s.lastPtsTimescale))

/-! ## Recording coordinator state (commands.rs) -/

/-- Model of `RecordingQuality` (capture.rs lines 43-51). -/
inductive RecordingQuality
  | Standard
  | High
deriving DecidableEq, Repr

/-- The recording-relevant fields of `RecordingState` (commands.rs lines
26-48).  Instants and durations are modelled as exact rationals (seconds);
the `Arc<AtomicBool>` paused flag is modelled by the boolean it contains
(`Option` mirroring the `Option<Arc<AtomicBool>>` field).  The ObjC handles
(`stream`, `writer`, inputs) are modelled by presence flags, which is all the
coordinator logic inspects. -/
structure RecState where
  hasStream : Bool
  hasWriter : Bool
  hasInput : Bool
  hasAudioInput : Bool
  hasMicInput : Bool
  outputPath : Option String
  isRecording : Bool
  isPaused : Bool
  startTime : Option ℚ
  pauseAccumulated : ℚ
  pauseStart : Option ℚ
  quality : RecordingQuality
  outputFormat : String
  pausedFlag : Option Bool
deriving DecidableEq, Repr

/-- Model of `RecordingState::default` (commands.rs lines 50-70). -/
def RecState.default : RecState where
  hasStream := false
  hasWriter := false
  hasInput := false
  hasAudioInput := false
  hasMicInput := false
  outputPath := none
  isRecording := false
  isPaused := false
  startTime := none
  pauseAccumulated := 0
  pauseStart := none
  quality := .Standard
  outputFormat := "video"
  pausedFlag := none

/-- Model of `pause_recording` (commands.rs lines 738-759) at wall-clock time `now`:
reject if not recording or already paused, otherwise set the shared atomic
flag, mark paused, and capture `pause_start = now`. -/
def pause_recording (now : ℚ) (s : RecState) : Except String RecState :=
  if !s.isRecording then .error "No recording in progress"
  else if s.isPaused then .error "Recording is already paused"
  else .ok { s with
    pausedFlag := s.pausedFlag.map fun _ => true
    isPaused := true
    pauseStart := some now }

/-- Model of `resume_recording` (commands.rs lines 763-787) at wall-clock time `now`:
reject if not recording or not paused, otherwise clear the shared atomic
flag, add `now - pause_start` to `pause_accumulated` (taking `pause_start`),
and clear the paused marker. -/
def resume_recording (now : ℚ) (s : RecState) : Except String RecState :=
  if !s.isRecording then .error "No recording in progress"
  else if !s.isPaused then .error "Recording is not paused"
  else
    let s1 := { s with pausedFlag := s.pausedFlag.map fun _ => false }
    let s2 :=
      match s1.pauseStart with
      | some ps => { s1 with pauseAccumulated := s1.pauseAccumulated + (now - ps), pauseStart := none }
      | none => s1
    .ok { s2 with isPaused := false }

/-- The duration expression computed identically by `get_recording_status`
(commands.rs lines 548-557) and `do_stop_recording` (lines 368-376):
`(now - start_time) - (pause_accumulated + (now - pause_start | 0))`,
or `0.0` when there is no start time. -/
def reportedDuration (now : ℚ) (s : RecState) : ℚ :=
  match s.startTime with
  | some t =>
      let wall := now - t
      let paused := s.pauseAccumulated +
        (match s.pauseStart with
         | some ps => now - ps
         | none => 0)
      wall - paused
  | none => 0

/-- The status record returned by `get_recording_status` (commands.rs lines
541-561). -/
structure RecStatus where
  isRecording : Bool
  isPaused : Bool
  durationSecs : ℚ
  outputPath : Option String
deriving DecidableEq, Repr

/-- Model of `get_recording_status` (commands.rs lines 541-561). -/
def get_recording_status (now : ℚ) (s : RecState) : RecStatus where
  isRecording := s.isRecording
  isPaused := s.isPaused
  durationSecs := reportedDuration now s
  outputPath := s.outputPath

/-- Everything `do_start_recording` obtains from outside the session state:
the default output path it would synthesise, the wall-clock start instant,
and — collapsed to one field — whether any of the fallible steps between the
guard and the final state mutation (shareable-content query, writer
creation, `start_writing`, capture start) fails, with its error.  None of
those steps touches `RecordingState`. -/
structure StartEnv where
  defaultPath : String
  now : ℚ
  failure : Option String
  audioInputAdded : Bool
  micInputAdded : Bool
deriving DecidableEq, Repr

/-- The state logic of `do_start_recording` (commands.rs lines 122-317):
the already-recording guard, then — when every external step succeeds — the
single batch of session-field assignments at lines 277-292. -/
def do_start_recording (env : StartEnv) (outputPath : Option String)
    (quality : RecordingQuality) (outputFormat : Option String)
    (s : RecState) : Except String RecState :=
  if s.isRecording then .error "Recording already in progress"
  else
    match env.failure with
    | some e => .error e
    | none =>
        let path := outputPath.getD env.defaultPath
        .ok { s with
          hasStream := true
          hasWriter := true
          hasInput := true
          hasAudioInput := env.audioInputAdded
          hasMicInput := env.micInputAdded
          outputPath := some path
          isRecording := true
          isPaused := false
          startTime := some env.now
          pauseAccumulated := 0
          pauseStart := none
          quality := quality
          outputFormat := outputFormat.getD "video"
          pausedFlag := some false }

/-- The state logic of `do_stop_recording` (commands.rs lines 355-397): the
not-recording guard, the duration snapshot, and the reset of every session
field while the mutex is held.  Returns the reported duration together with
the reset state. -/
def do_stop_recording (now : ℚ) (s : RecState) : Except String (ℚ × RecState) :=
  if !s.isRecording then .error "No recording in progress"
  else
    let duration := reportedDuration now s
    .ok (duration, { s with
      hasStream := false
      hasWriter := false
      hasInput := false
      hasAudioInput := false
      hasMicInput := false
      outputPath := none
      outputFormat := "video"
      isRecording := false
      isPaused := false
      startTime := none
      pauseAccumulated := 0
      pauseStart := none
      quality := .Standard
      pausedFlag := none })

/-- The recording state after a `pause_recording` call: the state in the
mutex is mutated only when the call succeeds (the guards return before any
assignment). -/
def pausePost (now : ℚ) (s : RecState) : RecState :=
  match pause_recording now s with
  | .ok s' => s'
  | .error _ => s

/-- The recording state after a `resume_recording` call; mutated only on
success. -/
def resumePost (now : ℚ) (s : RecState) : RecState :=
  match resume_recording now s with
  | .ok s' => s'
  | .error _ => s

/-- The recording state after a `do_start_recording` call; mutated only on
success. -/
def startPost (env : StartEnv) (op : Option String) (q : RecordingQuality)
    (f : Option String) (s : RecState) : RecState :=
  match do_start_recording env op q f s with
  | .ok s' => s'
  | .error _ => s

/-! ## Even output dimensions (writer.rs, commands.rs, capture.rs) -/

/-- The even-dimension rounding in `create_video_settings` (writer.rs lines
346-347): `let w = if width % 2 != 0 { width + 1 } else { width };`. -/
def create_video_settings_dims (width height : Nat) : Nat × Nat :=
  ((if width % 2 ≠ 0 then width + 1 else width),
   (if height % 2 ≠ 0 then height + 1 else height))

/-- The region-to-physical-pixel computation in `do_start_recording`
(commands.rs lines 170-174): `(rgn.width * retina_scale) as usize` followed
by even rounding.  A non-negative `f64 as usize` cast truncates toward zero
and a negative one saturates to `0`; both are `Int.toNat ∘ Rat.floor` on the
non-positive side only at whole numbers, and the source values are
non-negative screen sizes, so floor-then-toNat is the faithful model. -/
def region_pixel_dims (rw rh scale : ℚ) : Nat × Nat :=
  let pixelW := (⌊rw * scale⌋).toNat
  let pixelH := (⌊rh * scale⌋).toNat
  ((if pixelW % 2 ≠ 0 then pixelW + 1 else pixelW),
   (if pixelH % 2 ≠ 0 then pixelH + 1 else pixelH))

/-- The even-dimension rounding at the top of `create_and_start`
(capture.rs lines 413-414). -/
def create_and_start_dims (width height : Nat) : Nat × Nat :=
  ((if width % 2 ≠ 0 then width + 1 else width),
   (if height % 2 ≠ 0 then height + 1 else height))

/-! ## Cursor tracker (cursor.rs) -/

/-- Model of `CursorEventKind` (cursor.rs lines 38-49). -/
inductive CursorEventKind
  | move
  | leftDown
  | leftUp
  | rightDown
  | scroll
deriving DecidableEq, Repr

/-- Model of `CursorEvent` (cursor.rs lines 24-33); times and coordinates are `f64`
in the source, modelled as exact rationals. -/
structure CursorEvent where
  time : ℚ
  x : ℚ
  y : ℚ
  kind : CursorEventKind
deriving DecidableEq, Repr

/-- The buffer transformation performed by `CursorTracker::stop`
(cursor.rs lines 359-385): take the whole event buffer and sort it by the
`time` field.  The source sorts with
`sort_by(|a, b| a.time.partial_cmp(&b.time).unwrap_or(Equal))`; on the
rational model of the (never-NaN) times this is the total order `≤` on
`time`, and Rust's stable sort is modelled by the stable `mergeSort`. -/
def cursorTracker_stop (events : List CursorEvent) : List CursorEvent :=
  events.mergeSort (fun a b => a.time ≤ b.time)

/-! ## Zoom controller (zoom.rs)

The controller works on `f64`; the embedding uses exact rationals.  The only
place the source uses a non-rational operation is
`moved_dist = (dx*dx + dy*dy).sqrt()` which is immediately compared against
non-negative thresholds; the embedding compares the squares
(`t ≤ √d ↔ t² ≤ d` for `t ≥ 0`), which is the same predicate over the reals.
Decimal literals (`1.05`, `0.005`, …) are taken at their exact decimal
values. -/

/-- Rust `x.clamp(lo, hi)` for `lo ≤ hi` (Rust panics otherwise). -/
def rclamp (x lo hi : ℚ) : ℚ := min (max x lo) hi

/-- The damped harmonic oscillator `Spring` (zoom.rs lines 108-117). -/
structure Spring where
  pos : ℚ
  vel : ℚ
  omega : ℚ
  damping : ℚ
deriving DecidableEq, Repr

/-- Model of `Spring::new` (zoom.rs lines 120-127). -/
def Spring.new (initial omega damping : ℚ) : Spring where
  pos := initial
  vel := 0
  omega := omega
  damping := damping

/-- Model of `Spring::step` (zoom.rs lines 131-139): semi-implicit Euler —
`accel = ω²(target - pos) - 2ζω·vel`; velocity first, then position. -/
def Spring.step (s : Spring) (target dt : ℚ) : Spring :=
  let accel := s.omega * s.omega * (target - s.pos) - 2 * s.damping * s.omega * s.vel
  let vel := s.vel + accel * dt
  { s with vel := vel, pos := s.pos + vel * dt }

/-- Iterated sub-steps of the spring towards the same target (the
`for _ in 0..4 { spring.step(target, sub_dt) }` loops). -/
def Spring.stepN (s : Spring) (target dt : ℚ) : Nat → Spring
  | 0 => s
  | n + 1 => (s.step target dt).stepN target dt n

/-- Model of `ZoomConfig` (zoom.rs lines 40-71). -/
structure ZoomConfig where
  maxZoom : ℚ
  panOmega : ℚ
  panDamping : ℚ
  zoomOmega : ℚ
  zoomDamping : ℚ
  idleDelay : ℚ
  moveDelay : ℚ
  moveThreshold : ℚ
  updateRate : Nat
deriving DecidableEq, Repr

/-- Model of `ZoomConfig::default` (zoom.rs lines 73-93). -/
def ZoomConfig.default : ZoomConfig where
  maxZoom := 2
  panOmega := 4
  panDamping := 85/100
  zoomOmega := 5/2
  zoomDamping := 1
  idleDelay := 1
  moveDelay := 4/10
  moveThreshold := 3
  updateRate := 60

/-- The loop-carried state of `zoom_thread` (zoom.rs lines 255-273): the two
pan springs, the zoom spring, the previous mouse position, and the idle /
move-time counters, plus the update counter. -/
structure ZoomState where
  panX : Spring
  panY : Spring
  zoomSpring : Spring
  prevMouseX : ℚ
  prevMouseY : ℚ
  idleTime : ℚ
  moveTime : ℚ
  updateCount : Nat
deriving DecidableEq, Repr

/-- The initial loop state of `zoom_thread` (zoom.rs lines 239-265, 273):
springs seeded at the initial mouse position when it lies in the region
(else the region centre), zoom spring at 1, `idle_time = 999`,
`move_time = 0`, `update_count = 0`. -/
def ZoomState.init (cfg : ZoomConfig) (ro rs : ℚ × ℚ) (initialMouse : ℚ × ℚ) : ZoomState :=
  let initX := if ro.1 ≤ initialMouse.1 ∧ initialMouse.1 ≤ ro.1 + rs.1
    then initialMouse.1 else ro.1 + rs.1 / 2
  let initY := if ro.2 ≤ initialMouse.2 ∧ initialMouse.2 ≤ ro.2 + rs.2
    then initialMouse.2 else ro.2 + rs.2 / 2
  { panX := Spring.new initX cfg.panOmega cfg.panDamping
    panY := Spring.new initY cfg.panOmega cfg.panDamping
    zoomSpring := Spring.new 1 cfg.zoomOmega cfg.zoomDamping
    prevMouseX := initX
    prevMouseY := initY
    idleTime := 999
    moveTime := 0
    updateCount := 0 }

/-- Step 2 of a tick (zoom.rs lines 280-306): update the move-time and
idle-time counters from the squared moved distance.  Returns
`(moveTime, idleTime)`. -/
def updateTimers (cfg : ZoomConfig) (dt movedSq prevZoomPos moveTime0 idleTime0 : ℚ) : ℚ × ℚ :=
  let alreadyZoomed := 105/100 < prevZoomPos
  let activeThreshold := if alreadyZoomed then 1/2 else cfg.moveThreshold
  if activeThreshold * activeThreshold < movedSq then
    ((if cfg.moveThreshold * cfg.moveThreshold < movedSq then moveTime0 + dt else moveTime0), 0)
  else
    let idle := idleTime0 + dt
    ((if 15/100 < idle then 0 else moveTime0), idle)

/-- Step 3 of a tick (zoom.rs lines 311-315): the target zoom level. -/
def targetZoomOf (cfg : ZoomConfig) (moveTime idleTime : ℚ) : ℚ :=
  if cfg.moveDelay ≤ moveTime ∧ idleTime < cfg.idleDelay then cfg.maxZoom else 1

/-- Step 7 of a tick (zoom.rs lines 360-398): the two-pass pan target for one
axis — cubic ease-in on the normalised cursor offset, then the hard clamp
into the 10 %-margin safe box around the clamped cursor target. -/
def panTargetZoomed (curC target halfV : ℚ) : ℚ :=
  let d := target - curC
  let n := if 1/10 < halfV then rclamp (|d| / halfV) 0 1 else 0
  let soft := curC + d * (n * n * n)
  let margin : ℚ := 10/100
  let safeHalf := halfV * (1 - margin)
  rclamp soft (target - safeHalf) (target + safeHalf)

/-- The blending branch of step 7 (zoom.rs lines 392-398): not zoomed in or
zooming out — blend towards the region centre by the effective zoom ratio. -/
def panTargetBlend (center target effRatio : ℚ) : ℚ :=
  center + (target - center) * effRatio

/-- Step 6 of the sourceRect computation (zoom.rs lines 405-418): clamp the
viewport centre so the rect stays inside the region, then return the rect. -/
structure RectQ where
  x : ℚ
  y : ℚ
  w : ℚ
  h : ℚ
deriving DecidableEq, Repr

/-- Compute the pushed sourceRect from the pan spring positions and the
viewport size (zoom.rs lines 405-418, 440-443). -/
def computeRect (ro rs : ℚ × ℚ) (panXpos panYpos viewportW viewportH : ℚ) : RectQ :=
  let halfW := viewportW / 2
  let halfH := viewportH / 2
  let minX := ro.1
  let minY := ro.2
  let maxX := ro.1 + rs.1
  let maxY := ro.2 + rs.2
  let cx := rclamp panXpos (minX + halfW) (maxX - halfW)
  let cy := rclamp panYpos (minY + halfH) (maxY - halfH)
  { x := cx - halfW, y := cy - halfH, w := viewportW, h := viewportH }

/-- Everything one iteration of the `zoom_thread` loop produces: the new
loop state, the configuration rect pushed to the stream (`none` when the
deadband skip at zoom.rs lines 420-431 fires), and — exposed for the
theorems — the tick's target zoom, clamped current zoom, clamped cursor
target and pan targets, and whether the zoomed two-pass pan branch ran. -/
structure TickResult where
  state : ZoomState
  pushedRect : Option RectQ
  targetZoom : ℚ
  currentZoom : ℚ
  targetX : ℚ
  targetY : ℚ
  panTargetX : ℚ
  panTargetY : ℚ
  zoomedPan : Bool
deriving DecidableEq, Repr

/-- One iteration of the `zoom_thread` loop body (zoom.rs lines 275-477) at
mouse position `mouse`:  movement detection, timer update, target zoom,
four zoom-spring sub-steps at `dt/4`, viewport computation, cursor-target
clamping, the two-pass pan-target policy, four pan-spring sub-steps,
sourceRect computation, and the deadband skip. -/
def zoomTick (cfg : ZoomConfig) (ro rs : ℚ × ℚ) (st : ZoomState) (mouse : ℚ × ℚ) :
    TickResult :=
  let dt : ℚ := 1 / (cfg.updateRate : ℚ)
  let dx := mouse.1 - st.prevMouseX
  let dy := mouse.2 - st.prevMouseY
  let movedSq := dx * dx + dy * dy
  let timers := updateTimers cfg dt movedSq st.zoomSpring.pos st.moveTime st.idleTime
  let moveTime := timers.1
  let idleTime := timers.2
  let targetZoom := targetZoomOf cfg moveTime idleTime
  let subDt := dt / 4
  let zoomSpring := st.zoomSpring.stepN targetZoom subDt 4
  let currentZoom := rclamp zoomSpring.pos 1 cfg.maxZoom
  let viewportW := rs.1 / currentZoom
  let viewportH := rs.2 / currentZoom
  let zoomingIn := 1 < targetZoom
  let effRatio := if zoomingIn then 1 else rclamp ((currentZoom - 1) / (cfg.maxZoom - 1)) 0 1
  let targetX := rclamp mouse.1 (ro.1 + viewportW / 2) (ro.1 + rs.1 - viewportW / 2)
  let targetY := rclamp mouse.2 (ro.2 + viewportH / 2) (ro.2 + rs.2 - viewportH / 2)
  let zoomedPan := 101/100 < currentZoom ∧ 1/2 < effRatio
  let panTargetX :=
    if zoomedPan then panTargetZoomed st.panX.pos targetX (viewportW / 2)
    else panTargetBlend (ro.1 + rs.1 / 2) targetX effRatio
  let panTargetY :=
    if zoomedPan then panTargetZoomed st.panY.pos targetY (viewportH / 2)
    else panTargetBlend (ro.2 + rs.2 / 2) targetY effRatio
  let panX := st.panX.stepN panTargetX subDt 4
  let panY := st.panY.stepN panTargetY subDt 4
  let rect := computeRect ro rs panX.pos panY.pos viewportW viewportH
  let zoomNearOne := |currentZoom - 1| < 5/1000
  let springSettled := |zoomSpring.vel| < 1/100 ∧ |panX.vel| < 1/10 ∧ |panY.vel| < 1/10
  let newState : ZoomState :=
    { panX := panX
      panY := panY
      zoomSpring := zoomSpring
      prevMouseX := mouse.1
      prevMouseY := mouse.2
      idleTime := idleTime
      moveTime := moveTime
      updateCount := st.updateCount + 1 }
  { state := newState
    pushedRect := if zoomNearOne ∧ springSettled ∧ 1 < st.updateCount then none else some rect
    targetZoom := targetZoom
    currentZoom := currentZoom
    targetX := targetX
    targetY := targetY
    panTargetX := panTargetX
    panTargetY := panTargetY
    zoomedPan := decide zoomedPan }

/-- Region containment of a rect: `ro ≤ rect ≤ ro + rs` on both axes. -/
def regionContainsRect (ro rs : ℚ × ℚ) (r : RectQ) : Prop :=
  ro.1 ≤ r.x ∧ ro.2 ≤ r.y ∧ r.x + r.w ≤ ro.1 + rs.1 ∧ r.y + r.h ≤ ro.2 + rs.2

instance (ro rs : ℚ × ℚ) (r : RectQ) : Decidable (regionContainsRect ro rs r) := by
  unfold regionContainsRect; infer_instance

/-- A point lies in a rect. -/
def RectQ.containsPt (r : RectQ) (px py : ℚ) : Prop :=
  r.x ≤ px ∧ px ≤ r.x + r.w ∧ r.y ≤ py ∧ py ≤ r.y + r.h

instance (r : RectQ) (px py : ℚ) : Decidable (r.containsPt px py) := by
  unfold RectQ.containsPt; infer_instance

/-- The rect shrunk by a 10 % margin per edge — the region the claim says
the cursor must occupy ("cursor ∈ rect_shrunk_by_10%"). -/
def RectQ.shrink10 (r : RectQ) : RectQ :=
  { x := r.x + r.w / 10, y := r.y + r.h / 10, w := r.w * 8/10, h := r.h * 8/10 }

/-! ## Concrete inputs used by witnesses and counterexamples -/

/-- A fresh delegate for a video-only session. -/
def c2state0 : DelegateState := DelegateState.new false false false

/-- A fully valid video sample at PTS 1/60 whose input is not ready. -/
def c2sample1 : Sample := ⟨0, true, true, true, ⟨1, 60⟩, false, true⟩

/-- A fully valid video sample at PTS 2/60 that appends successfully. -/
def c2sample2 : Sample := ⟨0, true, true, true, ⟨2, 60⟩, true, true⟩

/-- The delegate state after the two-sample run of the C2 counterexample. -/
def c2run : DelegateState := processSamples c2state0 [c2sample1, c2sample2]

/-- A delegate state that has appended one video frame at PTS 1/60. -/
def c1wState : DelegateState :=
  { DelegateState.new false false false with
    sessionStarted := true
    frameCount := 1
    lastPtsValue := 1
    lastPtsTimescale := 60
    sessionStartPts := some ⟨1, 60⟩
    videoAppends := [⟨1, 60⟩] }

/-- A valid video sample repeating PTS 1/60 (not strictly greater). -/
def c1wSample : Sample := ⟨0, true, true, true, ⟨1, 60⟩, true, true⟩

/-- A delegate with both audio inputs attached, not yet session-started. -/
def c10wState : DelegateState := DelegateState.new true true false

/-- A system-audio sample with a non-positive PTS — the audio path appends
it without any PTS validation. -/
def c10wSample : Sample := ⟨1, true, true, false, ⟨-5, 0⟩, true, false⟩

/-- A recording-in-progress coordinator state paused at t = 3 s of a session
started at t = 1 s. -/
def c5wState : RecState :=
  { RecState.default with
    hasStream := true
    hasWriter := true
    hasInput := true
    outputPath := some "out.mp4"
    isRecording := true
    isPaused := true
    startTime := some 1
    pauseAccumulated := 0
    pauseStart := some 3
    pausedFlag := some true }

/-- A recording-in-progress coordinator state that is not paused. -/
def c7wState : RecState :=
  { RecState.default with
    hasStream := true
    hasWriter := true
    hasInput := true
    outputPath := some "out.mp4"
    isRecording := true
    isPaused := false
    startTime := some 1
    pausedFlag := some false }

/-- A start environment for the C7 witness. -/
def c7wEnv : StartEnv :=
  { defaultPath := "zureshot.mp4", now := 2, failure := none,
    audioInputAdded := false, micInputAdded := false }

/-- A zoom-controller loop state: panning at the centre of a 1000 × 1000
region, zoomed to 1.5×, with 0.5 s of sustained mouse movement, the cursor
having been near the right edge on the previous tick. -/
def c3st : ZoomState :=
  { panX := { pos := 500, vel := 0, omega := 4, damping := 85/100 }
    panY := { pos := 500, vel := 0, omega := 4, damping := 85/100 }
    zoomSpring := { pos := 3/2, vel := 0, omega := 5/2, damping := 1 }
    prevMouseX := 700
    prevMouseY := 10
    idleTime := 0
    moveTime := 1/2
    updateCount := 5 }

/-- The tick of the C3 counterexample: the mouse has jumped to (10, 10),
a point inside the region, while zoomed to ≈1.5×. -/
def c3out : TickResult := zoomTick ZoomConfig.default (0, 0) (1000, 1000) c3st (10, 10)

/-- The rect that tick pushes to the stream. -/
def c3rect : RectQ := c3out.pushedRect.getD ⟨0, 0, 0, 0⟩

/-- A zoom-controller loop state for the C6 witness. -/
def c6wState : ZoomState := ZoomState.init ZoomConfig.default (0, 0) (800, 600) (400, 300)


/-! ## Helper lemmas about the frame-routing delegate -/

/-- The audio path never touches the video bookkeeping fields or the error
flag. -/
theorem append_audio_video_fields (s : DelegateState) (x : Sample) (t : AudioTarget) :
    (append_audio s x t).videoAppends = s.videoAppends ∧
    (append_audio s x t).lastPtsValue = s.lastPtsValue ∧
    (append_audio s x t).lastPtsTimescale = s.lastPtsTimescale ∧
    (append_audio s x t).frameCount = s.frameCount ∧
    (append_audio s x t).droppedCount = s.droppedCount ∧
    (append_audio s x t).ptsSkipCount = s.ptsSkipCount ∧
    (append_audio s x t).errorLogged = s.errorLogged := by
  unfold append_audio startSessionIfNeeded
  split_ifs <;> cases t <;> simp

/-- The delegate invariant only depends on the video bookkeeping fields. -/
theorem delegateInv_congr (s s' : DelegateState)
    (hv : s'.videoAppends = s.videoAppends)
    (h1 : s'.lastPtsValue = s.lastPtsValue)
    (h2 : s'.lastPtsTimescale = s.lastPtsTimescale)
    (h : DelegateInv s) : DelegateInv s' := by
  unfold DelegateInv at *
  rw [hv, h1, h2]
  exact h

/-- The one-shot session start changes no field other than `session_started`
and the published timestamp. -/
theorem startSession_video_fields (s : DelegateState) (pts : CMTimeQ) :
    (startSessionIfNeeded s pts).videoAppends = s.videoAppends ∧
    (startSessionIfNeeded s pts).lastPtsValue = s.lastPtsValue ∧
    (startSessionIfNeeded s pts).lastPtsTimescale = s.lastPtsTimescale ∧
    (startSessionIfNeeded s pts).frameCount = s.frameCount ∧
    (startSessionIfNeeded s pts).droppedCount = s.droppedCount := by
  unfold startSessionIfNeeded
  split_ifs <;> simp

/-- After `startSessionIfNeeded` the session is started, and the published
timestamp is this sample's PTS unless the session had already started. -/
theorem startSession_started (s : DelegateState) (pts : CMTimeQ) :
    (startSessionIfNeeded s pts).sessionStarted = true ∧
    (startSessionIfNeeded s pts).sessionStartPts =
      (if s.sessionStarted then s.sessionStartPts else some pts) := by
  unfold startSessionIfNeeded
  split_ifs with h <;> simp [h]

/-- Master case analysis of the screen-frame path: every outcome of
`handleVideo` is one of six explicit state shapes. -/
theorem handleVideo_cases (s : DelegateState) (x : Sample) :
    handleVideo s x = s ∨
    handleVideo s x = droppedInc s ∨
    handleVideo s x = droppedInc { s with ptsSkipCount := s.ptsSkipCount + 1 } ∨
    handleVideo s x = droppedInc (startSessionIfNeeded s x.pts) ∨
    handleVideo s x = droppedInc { startSessionIfNeeded s x.pts with errorLogged := true } ∨
    handleVideo s x = { startSessionIfNeeded s x.pts with
      lastPtsValue := x.pts.value
      lastPtsTimescale := x.pts.timescale
      frameCount := (startSessionIfNeeded s x.pts).frameCount + 1
      videoAppends := (startSessionIfNeeded s x.pts).videoAppends ++ [x.pts] } := by
  unfold handleVideo appendVideo
  split_ifs
  · exact Or.inr (Or.inl rfl)
  · exact Or.inr (Or.inl rfl)
  · exact Or.inl rfl
  · exact Or.inr (Or.inl rfl)
  · exact Or.inr (Or.inr (Or.inl rfl))
  · exact Or.inr (Or.inr (Or.inr (Or.inr (Or.inr rfl))))
  · exact Or.inr (Or.inr (Or.inr (Or.inr (Or.inl rfl))))
  · exact Or.inr (Or.inr (Or.inr (Or.inl rfl)))

/-- Master case analysis of the audio path. -/
theorem append_audio_cases (s : DelegateState) (x : Sample) (t : AudioTarget) :
    append_audio s x t = s ∨
    append_audio s x t = startSessionIfNeeded s x.pts ∨
    (t = .system ∧ append_audio s x t = { startSessionIfNeeded s x.pts with
      audioAppends := (startSessionIfNeeded s x.pts).audioAppends ++ [x.pts] }) ∨
    (t = .mic ∧ append_audio s x t = { startSessionIfNeeded s x.pts with
      micAppends := (startSessionIfNeeded s x.pts).micAppends ++ [x.pts] }) := by
  unfold append_audio
  split_ifs
  · exact Or.inl rfl
  · exact Or.inl rfl
  · cases t
    · exact Or.inr (Or.inr (Or.inl ⟨rfl, rfl⟩))
    · exact Or.inr (Or.inr (Or.inr ⟨rfl, rfl⟩))
  · exact Or.inr (Or.inl rfl)

/-- The screen-frame path preserves the delegate invariant. -/
theorem handleVideo_inv (s : DelegateState) (x : Sample) (h : DelegateInv s) :
    DelegateInv (handleVideo s x) := by
  unfold handleVideo
  split_ifs with hv hd hi hpts hmono
  · exact delegateInv_congr _ _ rfl rfl rfl h
  · exact delegateInv_congr _ _ rfl rfl rfl h
  · exact h
  · exact delegateInv_congr _ _ rfl rfl rfl h
  · exact delegateInv_congr _ _ rfl rfl rfl h
  · unfold appendVideo
    have hva : (startSessionIfNeeded s x.pts).videoAppends = s.videoAppends :=
      (startSession_video_fields s x.pts).1
    split_ifs with hready hok
    · obtain ⟨hchain, hlast⟩ := h
      push_neg at hpts
      constructor
      · show StrictPts ((startSessionIfNeeded s x.pts).videoAppends ++ [x.pts])
        unfold StrictPts
        rw [hva, List.chain'_append]
        refine ⟨hchain, List.chain'_singleton _, ?_⟩
        intro p hp' y hy
        simp at hy
        subst hy
        cases hgl : s.videoAppends.getLast? with
        | none => rw [hgl] at hp'; simp at hp'
        | some q =>
          rw [hgl] at hp'
          simp at hp'
          subst hp'
          rw [hgl] at hlast
          unfold lastMatches at hlast
          obtain ⟨e1, e2, pv, pt⟩ := hlast
          rw [e1, e2] at hmono
          push_neg at hmono
          unfold ptsLt
          exact hmono (le_of_lt pv) pt
      · show lastMatches ((startSessionIfNeeded s x.pts).videoAppends ++ [x.pts]).getLast? _ _
        rw [hva, List.getLast?_concat]
        unfold lastMatches
        exact ⟨rfl, rfl, hpts.1, hpts.2⟩
    · exact delegateInv_congr _ _ (by simp [droppedInc, hva])
        (by simp [droppedInc, (startSession_video_fields s x.pts).2.1])
        (by simp [droppedInc, (startSession_video_fields s x.pts).2.2.1]) h
    · exact delegateInv_congr _ _ (by simp [droppedInc, hva])
        (by simp [droppedInc, (startSession_video_fields s x.pts).2.1])
        (by simp [droppedInc, (startSession_video_fields s x.pts).2.2.1]) h

/-- Routing equation: the paused early return (capture.rs lines 102-105). -/
theorem router_paused (s : DelegateState) (x : Sample) (h : s.paused = true) :
    stream_didOutputSampleBuffer_ofType s x = s := by
  unfold stream_didOutputSampleBuffer_ofType
  rw [if_pos h]

/-- Routing equation: system-audio samples (capture.rs lines 109-114). -/
theorem router_audio (s : DelegateState) (x : Sample) (hp : s.paused = false)
    (h : x.outputType = 1) :
    stream_didOutputSampleBuffer_ofType s x =
      (if s.hasAudioInput then append_audio s x .system else s) := by
  unfold stream_didOutputSampleBuffer_ofType
  rw [if_neg (by simp [hp]), if_pos h]

/-- Routing equation: microphone samples (capture.rs lines 115-121). -/
theorem router_mic (s : DelegateState) (x : Sample) (hp : s.paused = false)
    (h : x.outputType = 2) :
    stream_didOutputSampleBuffer_ofType s x =
      (if s.hasMicInput then append_audio s x .mic else s) := by
  unfold stream_didOutputSampleBuffer_ofType
  rw [if_neg (by simp [hp]), if_neg (by omega), if_pos h]

/-- Routing equation: everything else is a screen frame. -/
theorem router_video (s : DelegateState) (x : Sample) (hp : s.paused = false)
    (h1 : x.outputType ≠ 1) (h2 : x.outputType ≠ 2) :
    stream_didOutputSampleBuffer_ofType s x = handleVideo s x := by
  unfold stream_didOutputSampleBuffer_ofType
  rw [if_neg (by simp [hp]), if_neg h1, if_neg h2]

/-- A non-monotonic valid video frame takes exactly the skip branch. -/
theorem handleVideo_skip (s : DelegateState) (x : Sample)
    (hv : x.isValid = true) (hd : x.dataIsReady = true) (hi : x.hasImage = true)
    (hpv : 0 < x.pts.value) (hpt : 0 < x.pts.timescale)
    (hl1 : 0 ≤ s.lastPtsValue) (hl2 : 0 < s.lastPtsTimescale)
    (hle : x.pts.value * s.lastPtsTimescale ≤ s.lastPtsValue * x.pts.timescale) :
    handleVideo s x = droppedInc { s with ptsSkipCount := s.ptsSkipCount + 1 } := by
  unfold handleVideo
  rw [if_neg (by simp [hv]), if_neg (by simp [hd]), if_neg (by simp [hi]),
    if_neg (by omega), if_pos ⟨hl1, hl2, hle⟩]

/-- One delegate step preserves the invariant, whatever the sample. -/
theorem router_inv (s : DelegateState) (x : Sample) (h : DelegateInv s) :
    DelegateInv (stream_didOutputSampleBuffer_ofType s x) := by
  by_cases hp : s.paused = true
  · rw [router_paused s x hp]; exact h
  · rw [Bool.not_eq_true] at hp
    by_cases h1 : x.outputType = 1
    · rw [router_audio s x hp h1]
      split_ifs
      · exact delegateInv_congr _ _ (append_audio_video_fields s x .system).1
          (append_audio_video_fields s x .system).2.1
          (append_audio_video_fields s x .system).2.2.1 h
      · exact h
    · by_cases h2 : x.outputType = 2
      · rw [router_mic s x hp h2]
        split_ifs
        · exact delegateInv_congr _ _ (append_audio_video_fields s x .mic).1
            (append_audio_video_fields s x .mic).2.1
            (append_audio_video_fields s x .mic).2.2.1 h
        · exact h
      · rw [router_video s x hp h1 h2]
        exact handleVideo_inv s x h

/-- `last_pts` is untouched by any step that does not append a video frame. -/
theorem handleVideo_lastPts_stable (s : DelegateState) (x : Sample)
    (h : (handleVideo s x).videoAppends = s.videoAppends) :
    (handleVideo s x).lastPtsValue = s.lastPtsValue ∧
    (handleVideo s x).lastPtsTimescale = s.lastPtsTimescale := by
  have hf := startSession_video_fields s x.pts
  rcases handleVideo_cases s x with hc | hc | hc | hc | hc | hc <;> rw [hc]
  · exact ⟨rfl, rfl⟩
  · exact ⟨rfl, rfl⟩
  · exact ⟨rfl, rfl⟩
  · exact ⟨(by simp [droppedInc, hf.2.1]), (by simp [droppedInc, hf.2.2.1])⟩
  · exact ⟨(by simp [droppedInc, hf.2.1]), (by simp [droppedInc, hf.2.2.1])⟩
  · exfalso
    rw [hc] at h
    simp at h
    exact absurd (congrArg List.length h) (by simp [hf.1])

/-- `dropped_inc` leaves the session fields and append lists alone. -/
theorem droppedInc_fields (s : DelegateState) :
    (droppedInc s).sessionStarted = s.sessionStarted ∧
    (droppedInc s).sessionStartPts = s.sessionStartPts ∧
    (droppedInc s).videoAppends = s.videoAppends ∧
    (droppedInc s).audioAppends = s.audioAppends ∧
    (droppedInc s).micAppends = s.micAppends := by
  unfold droppedInc
  exact ⟨rfl, rfl, rfl, rfl, rfl⟩

/-- Master session-fields analysis of the whole delegate: either nothing
session-related happened and no list was appended, or the one-shot
`startSessionIfNeeded` ran on this sample's PTS. -/
theorem session_fields (s : DelegateState) (x : Sample) :
    ((stream_didOutputSampleBuffer_ofType s x).sessionStarted = s.sessionStarted ∧
     (stream_didOutputSampleBuffer_ofType s x).sessionStartPts = s.sessionStartPts ∧
     (stream_didOutputSampleBuffer_ofType s x).videoAppends = s.videoAppends ∧
     (stream_didOutputSampleBuffer_ofType s x).audioAppends = s.audioAppends ∧
     (stream_didOutputSampleBuffer_ofType s x).micAppends = s.micAppends) ∨
    ((stream_didOutputSampleBuffer_ofType s x).sessionStarted = true ∧
     (stream_didOutputSampleBuffer_ofType s x).sessionStartPts =
       (if s.sessionStarted then s.sessionStartPts else some x.pts)) := by
  have hss := startSession_started s x.pts
  by_cases hp : s.paused = true
  · rw [router_paused s x hp]; exact Or.inl ⟨rfl, rfl, rfl, rfl, rfl⟩
  · rw [Bool.not_eq_true] at hp
    have haud : ∀ t : AudioTarget,
        ((append_audio s x t).sessionStarted = s.sessionStarted ∧
         (append_audio s x t).sessionStartPts = s.sessionStartPts ∧
         (append_audio s x t).videoAppends = s.videoAppends ∧
         (append_audio s x t).audioAppends = s.audioAppends ∧
         (append_audio s x t).micAppends = s.micAppends) ∨
        ((append_audio s x t).sessionStarted = true ∧
         (append_audio s x t).sessionStartPts =
           (if s.sessionStarted then s.sessionStartPts else some x.pts)) := by
      intro t
      rcases append_audio_cases s x t with hc | hc | ⟨ht, hc⟩ | ⟨ht, hc⟩ <;> rw [hc]
      · exact Or.inl ⟨rfl, rfl, rfl, rfl, rfl⟩
      · exact Or.inr ⟨hss.1, hss.2⟩
      · exact Or.inr ⟨hss.1, hss.2⟩
      · exact Or.inr ⟨hss.1, hss.2⟩
    by_cases h1 : x.outputType = 1
    · rw [router_audio s x hp h1]
      by_cases hA : s.hasAudioInput = true
      · rw [if_pos hA]; exact haud .system
      · rw [if_neg hA]; exact Or.inl ⟨rfl, rfl, rfl, rfl, rfl⟩
    · by_cases h2 : x.outputType = 2
      · rw [router_mic s x hp h2]
        by_cases hM : s.hasMicInput = true
        · rw [if_pos hM]; exact haud .mic
        · rw [if_neg hM]; exact Or.inl ⟨rfl, rfl, rfl, rfl, rfl⟩
      · rw [router_video s x hp h1 h2]
        rcases handleVideo_cases s x with hc | hc | hc | hc | hc | hc <;> rw [hc]
        · exact Or.inl ⟨rfl, rfl, rfl, rfl, rfl⟩
        · exact Or.inl (droppedInc_fields s)
        · exact Or.inl ⟨rfl, rfl, rfl, rfl, rfl⟩
        · refine Or.inr ⟨?_, ?_⟩
          · rw [(droppedInc_fields _).1, hss.1]
          · rw [(droppedInc_fields _).2.1, hss.2]
        · refine Or.inr ⟨?_, ?_⟩
          · rw [(droppedInc_fields _).1]; exact hss.1
          · rw [(droppedInc_fields _).2.1]; exact hss.2
        · exact Or.inr ⟨hss.1, hss.2⟩

/-- An audio sample that passes validation with a ready input is appended to
its track, whatever its PTS. -/
theorem append_audio_appends (s : DelegateState) (x : Sample)
    (hv : x.isValid = true) (hd : x.dataIsReady = true) (hr : x.inputReady = true) :
    (append_audio s x .system).audioAppends = s.audioAppends ++ [x.pts] ∧
    (append_audio s x .mic).micAppends = s.micAppends ++ [x.pts] := by
  unfold append_audio
  rw [if_neg (by simp [hv]), if_neg (by simp [hd]), if_pos hr,
    if_neg (by simp [hv]), if_neg (by simp [hd]), if_pos hr]
  have ha : (startSessionIfNeeded s x.pts).audioAppends = s.audioAppends := by
    unfold startSessionIfNeeded; split_ifs <;> rfl
  have hm : (startSessionIfNeeded s x.pts).micAppends = s.micAppends := by
    unfold startSessionIfNeeded; split_ifs <;> rfl
  exact ⟨by show _ ++ [x.pts] = _; rw [ha], by show _ ++ [x.pts] = _; rw [hm]⟩

/-- A validated audio sample arriving before the session starts publishes its
own PTS as the session-start timestamp, with no PTS validation. -/
theorem append_audio_session_pts (s : DelegateState) (x : Sample) (t : AudioTarget)
    (hv : x.isValid = true) (hd : x.dataIsReady = true) (h0 : s.sessionStarted = false) :
    (append_audio s x t).sessionStartPts = some x.pts := by
  unfold append_audio
  rw [if_neg (by simp [hv]), if_neg (by simp [hd])]
  have hpts : (startSessionIfNeeded s x.pts).sessionStartPts = some x.pts := by
    rw [(startSession_started s x.pts).2, if_neg (by simp [h0])]
  split_ifs
  · cases t <;> simpa using hpts
  · exact hpts


/-! ## Helper lemmas about the zoom controller -/

/-- Projection: the tick's target zoom is computed from the updated timers. -/
theorem zoomTick_targetZoom (cfg : ZoomConfig) (ro rs : ℚ × ℚ) (st : ZoomState) (mouse : ℚ × ℚ) :
    (zoomTick cfg ro rs st mouse).targetZoom =
      targetZoomOf cfg (zoomTick cfg ro rs st mouse).state.moveTime
        (zoomTick cfg ro rs st mouse).state.idleTime := rfl

/-- Projection: the tick's zoom spring is four sub-steps at `dt/4` towards
the tick's target zoom. -/
theorem zoomTick_zoomSpring (cfg : ZoomConfig) (ro rs : ℚ × ℚ) (st : ZoomState) (mouse : ℚ × ℚ) :
    (zoomTick cfg ro rs st mouse).state.zoomSpring =
      st.zoomSpring.stepN (zoomTick cfg ro rs st mouse).targetZoom
        (1 / (cfg.updateRate : ℚ) / 4) 4 := rfl

/-- Projection: the tick's current zoom is the clamped spring position. -/
theorem zoomTick_currentZoom (cfg : ZoomConfig) (ro rs : ℚ × ℚ) (st : ZoomState) (mouse : ℚ × ℚ) :
    (zoomTick cfg ro rs st mouse).currentZoom =
      rclamp (zoomTick cfg ro rs st mouse).state.zoomSpring.pos 1 cfg.maxZoom := rfl

/-- A clamped value lands in the clamping interval. -/
theorem rclamp_bounds (x lo hi : ℚ) (h : lo ≤ hi) :
    lo ≤ rclamp x lo hi ∧ rclamp x lo hi ≤ hi := by
  unfold rclamp
  exact ⟨le_min (le_max_right x lo) h, min_le_right _ _⟩

/-- Every rect a tick pushes is the clamped-centre rect of the tick's
viewport. -/
theorem zoomTick_rect (cfg : ZoomConfig) (ro rs : ℚ × ℚ) (st : ZoomState) (mouse : ℚ × ℚ)
    (r : RectQ) (hr : (zoomTick cfg ro rs st mouse).pushedRect = some r) :
    r = computeRect ro rs (zoomTick cfg ro rs st mouse).state.panX.pos
      (zoomTick cfg ro rs st mouse).state.panY.pos
      (rs.1 / (zoomTick cfg ro rs st mouse).currentZoom)
      (rs.2 / (zoomTick cfg ro rs st mouse).currentZoom) := by
  have key : ∀ {c : Prop} (inst : Decidable c) (a x : RectQ),
      (if c then none else some a) = some x → x = a := by
    intro c inst a x h
    split at h
    · exact absurd h (by simp)
    · exact (Option.some_injective _ h).symm
  simp only [zoomTick] at hr ⊢
  exact key _ _ _ hr

/-- When the zoomed two-pass branch runs, both pan targets come from
`panTargetZoomed` at the tick's clamped cursor target and half-viewport. -/
theorem zoomTick_panTargets (cfg : ZoomConfig) (ro rs : ℚ × ℚ) (st : ZoomState) (mouse : ℚ × ℚ)
    (h : (zoomTick cfg ro rs st mouse).zoomedPan = true) :
    (zoomTick cfg ro rs st mouse).panTargetX =
      panTargetZoomed st.panX.pos (zoomTick cfg ro rs st mouse).targetX
        (rs.1 / (zoomTick cfg ro rs st mouse).currentZoom / 2) ∧
    (zoomTick cfg ro rs st mouse).panTargetY =
      panTargetZoomed st.panY.pos (zoomTick cfg ro rs st mouse).targetY
        (rs.2 / (zoomTick cfg ro rs st mouse).currentZoom / 2) := by
  simp only [zoomTick] at h ⊢
  rw [if_pos (of_decide_eq_true h), if_pos (of_decide_eq_true h)]
  exact ⟨rfl, rfl⟩

/-- The clamped-centre rect of a viewport no larger than the region stays
inside the region. -/
theorem computeRect_in_region (ro rs : ℚ × ℚ) (px py vw vh : ℚ)
    (hw1 : vw ≤ rs.1) (hh1 : vh ≤ rs.2) :
    regionContainsRect ro rs (computeRect ro rs px py vw vh) := by
  unfold computeRect regionContainsRect
  have hx := rclamp_bounds px (ro.1 + vw / 2) (ro.1 + rs.1 - vw / 2) (by linarith)
  have hy := rclamp_bounds py (ro.2 + vh / 2) (ro.2 + rs.2 - vh / 2) (by linarith)
  refine ⟨?_, ?_, ?_, ?_⟩ <;> simp only [] <;>
    [linarith [hx.1]; linarith [hy.1]; linarith [hx.2]; linarith [hy.2]]

/-- The hard clamp of pass 2 keeps the pan target within the 10 %-margin
safe half-extent of the clamped cursor target. -/
theorem panTargetZoomed_margin (curC target halfV : ℚ) (h : 0 ≤ halfV) :
    |target - panTargetZoomed curC target halfV| ≤ 9/10 * halfV := by
  unfold panTargetZoomed
  have hb := rclamp_bounds (curC + (target - curC) *
      ((if 1/10 < halfV then rclamp (|target - curC| / halfV) 0 1 else 0) *
       (if 1/10 < halfV then rclamp (|target - curC| / halfV) 0 1 else 0) *
       (if 1/10 < halfV then rclamp (|target - curC| / halfV) 0 1 else 0)))
    (target - halfV * (1 - 10/100)) (target + halfV * (1 - 10/100)) (by linarith)
  rw [abs_le]
  constructor <;> [linarith [hb.2]; linarith [hb.1]]


/-! ## Claim theorems -/

/-- Claim C1: for every recording session the PTS values of appended video
samples form a strictly increasing sequence in rational order (the invariant
`DelegateInv` — which contains `StrictPts` of the appended list — holds after
any sequence of samples); a video sample whose PTS is not strictly greater
than the last appended PTS, compared by cross-multiplication in a wider
integer type, is dropped with the skip counter incremented and `last_pts`
untouched; and `last_pts` is updated only on a successful append. -/
theorem video_pts_strictly_increasing (s : DelegateState) (x : Sample)
    (h : DelegateInv s) :
    (∀ xs : List Sample, DelegateInv (processSamples s xs)) ∧
    (s.paused = false → x.outputType ≠ 1 → x.outputType ≠ 2 →
      x.isValid = true → x.dataIsReady = true → x.hasImage = true →
      0 < x.pts.value → 0 < x.pts.timescale →
      0 ≤ s.lastPtsValue → 0 < s.lastPtsTimescale →
      x.pts.value * s.lastPtsTimescale ≤ s.lastPtsValue * x.pts.timescale →
      stream_didOutputSampleBuffer_ofType s x =
        droppedInc { s with ptsSkipCount := s.ptsSkipCount + 1 }) ∧
    ((stream_didOutputSampleBuffer_ofType s x).videoAppends = s.videoAppends →
      (stream_didOutputSampleBuffer_ofType s x).lastPtsValue = s.lastPtsValue ∧
      (stream_didOutputSampleBuffer_ofType s x).lastPtsTimescale = s.lastPtsTimescale) := by
  have hall : ∀ (xs : List Sample) (s0 : DelegateState),
      DelegateInv s0 → DelegateInv (processSamples s0 xs) := by
    intro xs
    induction xs with
    | nil => intro s0 h0; exact h0
    | cons y ys ih =>
        intro s0 h0
        show DelegateInv (processSamples (stream_didOutputSampleBuffer_ofType s0 y) ys)
        exact ih _ (router_inv s0 y h0)
  refine ⟨fun xs => hall xs s h, ?_, ?_⟩
  · intro hp h1 h2 hv hd hi hpv hpt hl1 hl2 hle
    rw [router_video s x hp h1 h2]
    exact handleVideo_skip s x hv hd hi hpv hpt hl1 hl2 hle
  · intro hva
    by_cases hp : s.paused = true
    · rw [router_paused s x hp]; exact ⟨rfl, rfl⟩
    · rw [Bool.not_eq_true] at hp
      by_cases h1 : x.outputType = 1
      · rw [router_audio s x hp h1]
        split_ifs
        · exact ⟨(append_audio_video_fields s x .system).2.1,
            (append_audio_video_fields s x .system).2.2.1⟩
        · exact ⟨rfl, rfl⟩
      · by_cases h2 : x.outputType = 2
        · rw [router_mic s x hp h2]
          split_ifs
          · exact ⟨(append_audio_video_fields s x .mic).2.1,
              (append_audio_video_fields s x .mic).2.2.1⟩
          · exact ⟨rfl, rfl⟩
        · rw [router_video s x hp h1 h2]
          exact handleVideo_lastPts_stable s x
            (by rw [router_video s x hp h1 h2] at hva; exact hva)

/-- Witness for C1 at a concrete state: after one appended frame at PTS 1/60,
a repeat of PTS 1/60 takes exactly the skip branch, the invariant still holds
after the run, and `last_pts` is unchanged. -/
theorem video_pts_strictly_increasing_witness :
    DelegateInv (processSamples c1wState [c1wSample]) ∧
    stream_didOutputSampleBuffer_ofType c1wState c1wSample =
      droppedInc { c1wState with ptsSkipCount := c1wState.ptsSkipCount + 1 } ∧
    (stream_didOutputSampleBuffer_ofType c1wState c1wSample).lastPtsValue =
      c1wState.lastPtsValue := by
  refine ⟨(video_pts_strictly_increasing c1wState c1wSample (by decide)).1 [c1wSample],
    (video_pts_strictly_increasing c1wState c1wSample (by decide)).2.1
      rfl (by decide) (by decide) rfl rfl rfl (by decide) (by decide)
      (by decide) (by decide) (by decide),
    ((video_pts_strictly_increasing c1wState c1wSample (by decide)).2.2 (by decide)).1⟩

/-- Counterexample to C2 as stated: in a run where the first validated video
sample (PTS 1/60) finds the writer input not ready and is therefore dropped,
and the second sample (PTS 2/60) is the first actually appended, the writer's
session-start timestamp is 1/60 — not the PTS of the first appended sample. -/
theorem session_start_pts_counterexample :
    c2run.videoAppends = [⟨2, 60⟩] ∧
    c2run.audioAppends = [] ∧
    c2run.micAppends = [] ∧
    c2run.sessionStartPts = some ⟨1, 60⟩ ∧
    c2run.sessionStartPts ≠ some (⟨2, 60⟩ : CMTimeQ) := by
  decide

/-- Claim C2, amended: the session-started flag transitions false→true
exactly once (once set it stays set and the published timestamp is frozen),
and the writer's session-start timestamp equals the PTS of the first sample
— video or audio — that passes its validation checks and reaches the
one-shot session start, which may differ from the first actually appended
sample when that sample's input is not ready or its append fails; in
particular any sample that does get appended finds the session already
started at that PTS. -/
theorem session_start_once_at_first_validated (s : DelegateState) (x : Sample) :
    (s.sessionStarted = true →
      (stream_didOutputSampleBuffer_ofType s x).sessionStarted = true ∧
      (stream_didOutputSampleBuffer_ofType s x).sessionStartPts = s.sessionStartPts) ∧
    (s.sessionStarted = false →
      (stream_didOutputSampleBuffer_ofType s x).sessionStarted = true →
      (stream_didOutputSampleBuffer_ofType s x).sessionStartPts = some x.pts) ∧
    (s.sessionStarted = false →
      ((stream_didOutputSampleBuffer_ofType s x).videoAppends ≠ s.videoAppends ∨
       (stream_didOutputSampleBuffer_ofType s x).audioAppends ≠ s.audioAppends ∨
       (stream_didOutputSampleBuffer_ofType s x).micAppends ≠ s.micAppends) →
      (stream_didOutputSampleBuffer_ofType s x).sessionStarted = true ∧
      (stream_didOutputSampleBuffer_ofType s x).sessionStartPts = some x.pts) := by
  rcases session_fields s x with ⟨e1, e2, e3, e4, e5⟩ | ⟨e1, e2⟩
  · refine ⟨fun h => ⟨by rw [e1, h], e2⟩, fun h0 h1 => ?_, fun h0 hne => ?_⟩
    · rw [e1, h0] at h1; exact absurd h1 (by simp)
    · rcases hne with hne | hne | hne
      · exact absurd e3 hne
      · exact absurd e4 hne
      · exact absurd e5 hne
  · refine ⟨fun h => ⟨e1, by rw [e2, if_pos h]⟩,
      fun h0 _ => by rw [e2, if_neg (by simp [h0])],
      fun h0 _ => ⟨e1, by rw [e2, if_neg (by simp [h0])]⟩⟩

/-- Witness for the amended C2: the first validated sample of the
counterexample run (input not ready) starts the session and publishes its
PTS; processing the next sample leaves the published timestamp frozen. -/
theorem session_start_once_at_first_validated_witness :
    ((stream_didOutputSampleBuffer_ofType c2state0 c2sample1).sessionStartPts =
      some c2sample1.pts) ∧
    ((stream_didOutputSampleBuffer_ofType
        (stream_didOutputSampleBuffer_ofType c2state0 c2sample1) c2sample2).sessionStartPts =
      (stream_didOutputSampleBuffer_ofType c2state0 c2sample1).sessionStartPts) :=
  ⟨(session_start_once_at_first_validated c2state0 c2sample1).2.1 (by decide) (by decide),
   ((session_start_once_at_first_validated
      (stream_didOutputSampleBuffer_ofType c2state0 c2sample1) c2sample2).1 (by decide)).2⟩

/-- Claim C4: while the shared paused flag is true the delegate returns
immediately for every incoming sample of every stream type — the state is
bit-for-bit unchanged, so nothing is appended to any input and
`frame_count`, `dropped_count`, `pts_skip_count` and `last_pts` are all
constant. -/
theorem paused_drops_all_samples (s : DelegateState) (x : Sample) (h : s.paused = true) :
    stream_didOutputSampleBuffer_ofType s x = s ∧
    (stream_didOutputSampleBuffer_ofType s x).videoAppends = s.videoAppends ∧
    (stream_didOutputSampleBuffer_ofType s x).audioAppends = s.audioAppends ∧
    (stream_didOutputSampleBuffer_ofType s x).micAppends = s.micAppends ∧
    (stream_didOutputSampleBuffer_ofType s x).frameCount = s.frameCount ∧
    (stream_didOutputSampleBuffer_ofType s x).droppedCount = s.droppedCount ∧
    (stream_didOutputSampleBuffer_ofType s x).ptsSkipCount = s.ptsSkipCount ∧
    (stream_didOutputSampleBuffer_ofType s x).lastPtsValue = s.lastPtsValue ∧
    (stream_didOutputSampleBuffer_ofType s x).lastPtsTimescale = s.lastPtsTimescale := by
  have he := router_paused s x h
  rw [he]
  exact ⟨rfl, rfl, rfl, rfl, rfl, rfl, rfl, rfl, rfl⟩

/-- Witness for C4: a paused delegate ignores a fully valid video sample. -/
theorem paused_drops_all_samples_witness :
    stream_didOutputSampleBuffer_ofType (DelegateState.new true true true)
      ⟨0, true, true, true, ⟨1, 60⟩, true, true⟩ = DelegateState.new true true true :=
  (paused_drops_all_samples (DelegateState.new true true true)
    ⟨0, true, true, true, ⟨1, 60⟩, true, true⟩ (by decide)).1

/-- Claim C10: audio and microphone samples are appended after only validity
and data-ready checks — the audio path performs no PTS check of any kind,
never updates `last_pts_value`, `last_pts_timescale`, `frame_count` or
`dropped_count` (nor the error flag or the video list), appends whenever the
input is ready regardless of the `appendSampleBuffer` result, and a
first-arriving audio sample starts the writer session at its PTS without any
validation of that PTS. -/
theorem audio_path_no_validation (s : DelegateState) (x : Sample)
    (hp : s.paused = false)
    (hroute : (x.outputType = 1 ∧ s.hasAudioInput = true) ∨
              (x.outputType = 2 ∧ s.hasMicInput = true)) :
    ((stream_didOutputSampleBuffer_ofType s x).videoAppends = s.videoAppends ∧
     (stream_didOutputSampleBuffer_ofType s x).lastPtsValue = s.lastPtsValue ∧
     (stream_didOutputSampleBuffer_ofType s x).lastPtsTimescale = s.lastPtsTimescale ∧
     (stream_didOutputSampleBuffer_ofType s x).frameCount = s.frameCount ∧
     (stream_didOutputSampleBuffer_ofType s x).droppedCount = s.droppedCount ∧
     (stream_didOutputSampleBuffer_ofType s x).ptsSkipCount = s.ptsSkipCount ∧
     (stream_didOutputSampleBuffer_ofType s x).errorLogged = s.errorLogged) ∧
    (x.isValid = true → x.dataIsReady = true → x.inputReady = true →
      x.outputType = 1 →
      (stream_didOutputSampleBuffer_ofType s x).audioAppends = s.audioAppends ++ [x.pts]) ∧
    (x.isValid = true → x.dataIsReady = true → x.inputReady = true →
      x.outputType = 2 →
      (stream_didOutputSampleBuffer_ofType s x).micAppends = s.micAppends ++ [x.pts]) ∧
    (x.isValid = true → x.dataIsReady = true → s.sessionStarted = false →
      (stream_didOutputSampleBuffer_ofType s x).sessionStartPts = some x.pts) := by
  rcases hroute with ⟨h1, hA⟩ | ⟨h2, hM⟩
  · rw [router_audio s x hp h1, if_pos hA]
    refine ⟨append_audio_video_fields s x .system, fun hv hd hr _ => ?_,
      fun _ _ _ h2 => absurd h1 (by omega), fun hv hd h0 => ?_⟩
    · exact (append_audio_appends s x hv hd hr).1
    · exact append_audio_session_pts s x .system hv hd h0
  · rw [router_mic s x hp h2, if_pos hM]
    refine ⟨append_audio_video_fields s x .mic, fun _ _ _ h1 => absurd h2 (by omega),
      fun hv hd hr _ => ?_, fun hv hd h0 => ?_⟩
    · exact (append_audio_appends s x hv hd hr).2
    · exact append_audio_session_pts s x .mic hv hd h0

/-- Witness for C10: a system-audio sample carrying the invalid PTS -5/0,
whose append would report failure, is still appended and still starts the
session at that PTS, with all video bookkeeping untouched. -/
theorem audio_path_no_validation_witness :
    (stream_didOutputSampleBuffer_ofType c10wState c10wSample).audioAppends =
      c10wState.audioAppends ++ [⟨-5, 0⟩] ∧
    (stream_didOutputSampleBuffer_ofType c10wState c10wSample).sessionStartPts =
      some ⟨-5, 0⟩ ∧
    (stream_didOutputSampleBuffer_ofType c10wState c10wSample).frameCount =
      c10wState.frameCount :=
  ⟨(audio_path_no_validation c10wState c10wSample rfl (Or.inl ⟨rfl, rfl⟩)).2.1
      rfl rfl rfl rfl,
   (audio_path_no_validation c10wState c10wSample rfl (Or.inl ⟨rfl, rfl⟩)).2.2.2
      rfl rfl rfl,
   (audio_path_no_validation c10wState c10wSample rfl (Or.inl ⟨rfl, rfl⟩)).1.2.2.2.1⟩


/-- Claim C5: `resume_recording` adds `now - pause_start` to
`pause_accumulated` and clears the paused state (C7 covers its rejection
when not paused), and the duration reported both by `get_recording_status`
and by `do_stop_recording` equals
`(now - start_instant) - pause_accumulated - (now - pause_start)` while
paused, and `(now - start_instant) - pause_accumulated - 0` once resumed. -/
theorem resume_and_duration_reporting (now now2 t ps : ℚ) (s : RecState)
    (hrec : s.isRecording = true) (hp : s.isPaused = true)
    (hps : s.pauseStart = some ps) (hst : s.startTime = some t) :
    (∃ s', resume_recording now s = .ok s' ∧
      s'.pauseAccumulated = s.pauseAccumulated + (now - ps) ∧
      s'.isPaused = false ∧ s'.pauseStart = none ∧
      s'.startTime = s.startTime) ∧
    (get_recording_status now2 s).durationSecs =
      (now2 - t) - s.pauseAccumulated - (now2 - ps) ∧
    (∀ d s2, do_stop_recording now2 s = .ok (d, s2) →
      d = (now2 - t) - s.pauseAccumulated - (now2 - ps)) ∧
    (∀ s', resume_recording now s = .ok s' →
      (get_recording_status now2 s').durationSecs =
        (now2 - t) - s'.pauseAccumulated - 0) := by
  have hok : resume_recording now s = .ok { s with
      pausedFlag := s.pausedFlag.map fun _ => false
      pauseAccumulated := s.pauseAccumulated + (now - ps)
      pauseStart := none
      isPaused := false } := by
    unfold resume_recording
    rw [if_neg (by simp [hrec]), if_neg (by simp [hp])]
    simp only [hps]
  have hdur : reportedDuration now2 s = (now2 - t) - s.pauseAccumulated - (now2 - ps) := by
    unfold reportedDuration
    rw [hst, hps]
    ring
  refine ⟨⟨_, hok, rfl, rfl, rfl, rfl⟩, hdur, ?_, ?_⟩
  · intro d s2 hstop
    unfold do_stop_recording at hstop
    rw [if_neg (by simp [hrec])] at hstop
    have hd : d = reportedDuration now2 s := by
      have := (Except.ok.injEq _ _).mp hstop
      exact (congrArg Prod.fst this).symm
    rw [hd, hdur]
  · intro s' hs'
    rw [hok] at hs'
    have he := (Except.ok.injEq _ _).mp hs'
    rw [← he]
    unfold get_recording_status reportedDuration
    simp only [hst]
    ring

/-- Witness for C5: a session started at t = 1 and paused at t = 3, resumed
at now = 5 and queried at now2 = 7. -/
theorem resume_and_duration_reporting_witness :
    (∃ s', resume_recording 5 c5wState = .ok s' ∧
      s'.pauseAccumulated = c5wState.pauseAccumulated + (5 - 3) ∧
      s'.isPaused = false ∧ s'.pauseStart = none ∧
      s'.startTime = c5wState.startTime) ∧
    (get_recording_status 7 c5wState).durationSecs =
      (7 - 1) - c5wState.pauseAccumulated - (7 - 3) ∧
    (∀ d s2, do_stop_recording 7 c5wState = .ok (d, s2) →
      d = (7 - 1) - c5wState.pauseAccumulated - (7 - 3)) ∧
    (∀ s', resume_recording 5 c5wState = .ok s' →
      (get_recording_status 7 c5wState).durationSecs =
        (7 - 1) - c5wState.pauseAccumulated - (7 - 3)) := by
  have h := resume_and_duration_reporting 5 7 1 3 c5wState rfl rfl rfl rfl
  exact ⟨h.1, h.2.1, h.2.2.1, fun s' _ => h.2.1⟩

/-- Claim C7: `do_start_recording` while a recording is in progress returns
the already-recording error; `pause_recording` rejects when not recording or
already paused; `resume_recording` rejects when not recording or not paused;
and in every rejection case the post-call recording state is exactly the
pre-call state. -/
theorem lifecycle_guards_reject_without_mutation (env : StartEnv)
    (op : Option String) (q : RecordingQuality) (f : Option String)
    (now : ℚ) (s : RecState) :
    (s.isRecording = true →
      do_start_recording env op q f s = .error "Recording already in progress" ∧
      startPost env op q f s = s) ∧
    (s.isRecording = false →
      pause_recording now s = .error "No recording in progress" ∧ pausePost now s = s) ∧
    (s.isRecording = true → s.isPaused = true →
      pause_recording now s = .error "Recording is already paused" ∧ pausePost now s = s) ∧
    (s.isRecording = false →
      resume_recording now s = .error "No recording in progress" ∧ resumePost now s = s) ∧
    (s.isRecording = true → s.isPaused = false →
      resume_recording now s = .error "Recording is not paused" ∧ resumePost now s = s) := by
  refine ⟨fun h1 => ?_, fun h1 => ?_, fun h1 h2 => ?_, fun h1 => ?_, fun h1 h2 => ?_⟩
  · have he : do_start_recording env op q f s = .error "Recording already in progress" := by
      unfold do_start_recording; rw [if_pos h1]
    exact ⟨he, by unfold startPost; rw [he]⟩
  · have he : pause_recording now s = .error "No recording in progress" := by
      unfold pause_recording; rw [if_pos (by simp [h1])]
    exact ⟨he, by unfold pausePost; rw [he]⟩
  · have he : pause_recording now s = .error "Recording is already paused" := by
      unfold pause_recording; rw [if_neg (by simp [h1]), if_pos h2]
    exact ⟨he, by unfold pausePost; rw [he]⟩
  · have he : resume_recording now s = .error "No recording in progress" := by
      unfold resume_recording; rw [if_pos (by simp [h1])]
    exact ⟨he, by unfold resumePost; rw [he]⟩
  · have he : resume_recording now s = .error "Recording is not paused" := by
      unfold resume_recording; rw [if_neg (by simp [h1]), if_pos (by simp [h2])]
    exact ⟨he, by unfold resumePost; rw [he]⟩

/-- Witness for C7: starting during an active recording, pausing a paused
session, and resuming a non-paused session are all rejected without touching
the state. -/
theorem lifecycle_guards_reject_without_mutation_witness :
    (do_start_recording c7wEnv none RecordingQuality.Standard none c7wState =
      .error "Recording already in progress" ∧
     startPost c7wEnv none RecordingQuality.Standard none c7wState = c7wState) ∧
    (pause_recording 4 c5wState = .error "Recording is already paused" ∧
      pausePost 4 c5wState = c5wState) ∧
    (resume_recording 4 c7wState = .error "Recording is not paused" ∧
      resumePost 4 c7wState = c7wState) ∧
    (pause_recording 4 RecState.default = .error "No recording in progress" ∧
      pausePost 4 RecState.default = RecState.default) ∧
    (resume_recording 4 RecState.default = .error "No recording in progress" ∧
      resumePost 4 RecState.default = RecState.default) :=
  ⟨(lifecycle_guards_reject_without_mutation c7wEnv none .Standard none 4 c7wState).1 rfl,
   (lifecycle_guards_reject_without_mutation c7wEnv none .Standard none 4 c5wState).2.2.1 rfl rfl,
   (lifecycle_guards_reject_without_mutation c7wEnv none .Standard none 4 c7wState).2.2.2.2 rfl rfl,
   (lifecycle_guards_reject_without_mutation c7wEnv none .Standard none 4 RecState.default).2.1 rfl,
   (lifecycle_guards_reject_without_mutation c7wEnv none .Standard none 4 RecState.default).2.2.2.1 rfl⟩

/-- Claim C8: the output-pixel dimensions used by the encoder's video
settings, by the region-to-physical-pixel computation, and by the capture
configuration are always even — an odd requested dimension is rounded up by
one, an even one is kept. -/
theorem output_dimensions_even (w h : Nat) (rw rh scale : ℚ) :
    (create_video_settings_dims w h).1 % 2 = 0 ∧
    (create_video_settings_dims w h).2 % 2 = 0 ∧
    (region_pixel_dims rw rh scale).1 % 2 = 0 ∧
    (region_pixel_dims rw rh scale).2 % 2 = 0 ∧
    (create_and_start_dims w h).1 % 2 = 0 ∧
    (create_and_start_dims w h).2 % 2 = 0 ∧
    (w % 2 = 1 → (create_video_settings_dims w h).1 = w + 1 ∧
      (create_and_start_dims w h).1 = w + 1) ∧
    (w % 2 = 0 → (create_video_settings_dims w h).1 = w ∧
      (create_and_start_dims w h).1 = w) := by
  unfold create_video_settings_dims region_pixel_dims create_and_start_dims
  refine ⟨?_, ?_, ?_, ?_, ?_, ?_, ?_, ?_⟩ <;> simp only [] <;> split_ifs <;> omega

/-- Witness for C8: an odd width of 1439 is rounded up to 1440. -/
theorem output_dimensions_even_witness :
    (create_video_settings_dims 1439 900).1 = 1439 + 1 ∧
    (create_and_start_dims 1439 900).1 = 1439 + 1 :=
  (output_dimensions_even 1439 900 0 0 0).2.2.2.2.2.2.1 (by decide)

/-- Claim C9: `CursorTracker::stop` returns the full collected event buffer
— a permutation of it, nothing added or lost — sorted by the `time` field in
non-decreasing order, whatever interleaved order the poll thread and the
event-tap thread stored the events in. -/
theorem cursor_stop_sorted (events : List CursorEvent) :
    (cursorTracker_stop events).Pairwise (fun a b => a.time ≤ b.time) ∧
    (cursorTracker_stop events).Perm events := by
  constructor
  · have hs := @List.sorted_mergeSort CursorEvent
      (fun a b : CursorEvent => decide (a.time ≤ b.time))
      (fun a b c hab hbc => by
        simp only [decide_eq_true_eq] at *
        exact le_trans hab hbc)
      (fun a b => by
        simp only [Bool.or_eq_true, decide_eq_true_eq]
        exact le_total a.time b.time)
      events
    unfold cursorTracker_stop
    exact hs.imp (fun h => by simpa using h)
  · exact List.mergeSort_perm events _


/-- Claim C6: each zoom-controller tick sets the target zoom to `max_zoom`
iff the updated `move_time` has reached `move_delay` and the updated
`idle_time` is below `idle_delay` (and to `1.0` otherwise), sub-steps the
zoom spring four times with `dt/4` towards that target, and uses as current
zoom the spring position clamped to `[1.0, max_zoom]`. -/
theorem zoom_tick_target_and_clamp (cfg : ZoomConfig) (ro rs : ℚ × ℚ)
    (st : ZoomState) (mouse : ℚ × ℚ) :
    (zoomTick cfg ro rs st mouse).targetZoom =
      (if cfg.moveDelay ≤ (zoomTick cfg ro rs st mouse).state.moveTime ∧
          (zoomTick cfg ro rs st mouse).state.idleTime < cfg.idleDelay
        then cfg.maxZoom else 1) ∧
    (zoomTick cfg ro rs st mouse).state.zoomSpring =
      st.zoomSpring.stepN (zoomTick cfg ro rs st mouse).targetZoom
        (1 / (cfg.updateRate : ℚ) / 4) 4 ∧
    (zoomTick cfg ro rs st mouse).currentZoom =
      rclamp (zoomTick cfg ro rs st mouse).state.zoomSpring.pos 1 cfg.maxZoom ∧
    (1 ≤ cfg.maxZoom →
      1 ≤ (zoomTick cfg ro rs st mouse).currentZoom ∧
      (zoomTick cfg ro rs st mouse).currentZoom ≤ cfg.maxZoom) := by
  refine ⟨?_, zoomTick_zoomSpring cfg ro rs st mouse,
    zoomTick_currentZoom cfg ro rs st mouse, ?_⟩
  · rw [zoomTick_targetZoom]
    unfold targetZoomOf
    rfl
  · intro hmz
    rw [zoomTick_currentZoom]
    exact rclamp_bounds _ 1 cfg.maxZoom hmz

/-- Witness for C6 at the default configuration and a concrete tick. -/
theorem zoom_tick_target_and_clamp_witness :
    1 ≤ (zoomTick ZoomConfig.default (0, 0) (800, 600) c6wState (410, 300)).currentZoom ∧
    (zoomTick ZoomConfig.default (0, 0) (800, 600) c6wState (410, 300)).currentZoom ≤
      ZoomConfig.default.maxZoom :=
  (zoom_tick_target_and_clamp ZoomConfig.default (0, 0) (800, 600) c6wState
    (410, 300)).2.2.2 (by norm_num [ZoomConfig.default])

/-- Counterexample to C3 as stated: at a reachable controller state — zoomed
to ≈1.5× with the pan springs at the centre of the 1000×1000 region after
sustained movement — a tick in which the mouse has jumped to (10, 10), a
point inside the recording region, pushes a rectangle that does lie inside
the region while the current zoom exceeds 1.05, yet the cursor is outside
the rectangle shrunk by a 10 % margin per edge (indeed outside the pushed
rectangle altogether): the hard 90 % guarantee holds for the clamped pan
target, not for the cursor against the actually pushed rectangle. -/
theorem zoom_cursor_margin_counterexample :
    c3out.pushedRect = some c3rect ∧
    regionContainsRect (0, 0) (1000, 1000) c3rect ∧
    21/20 < c3out.currentZoom ∧
    RectQ.containsPt { x := 0, y := 0, w := 1000, h := 1000 } 10 10 ∧
    ¬ c3rect.shrink10.containsPt 10 10 ∧
    ¬ c3rect.containsPt 10 10 := by
  norm_num [c3out, c3rect, c3st, zoomTick, updateTimers, targetZoomOf, Spring.stepN,
    Spring.step, rclamp, computeRect, panTargetZoomed, panTargetBlend, ZoomConfig.default,
    RectQ.shrink10, RectQ.containsPt, regionContainsRect, min_def, max_def, abs]

/-- Claim C3, amended: every crop rectangle the zoom controller pushes lies
entirely inside the recording region (for a region of non-negative size and
`max_zoom ≥ 1`); and whenever the zoomed two-pass pan branch runs (current
zoom above 1.01 and effective zoom ratio above 0.5), the hard clamp of
pass 2 keeps the *clamped cursor target* within the 10 %-margin
half-extents of the *pan target* — the guarantee applies to the pan target
the springs chase, not to the raw cursor against the pushed rectangle,
which the springs' lag can leave outside it. -/
theorem zoom_rect_in_region_and_target_margin (cfg : ZoomConfig) (ro rs : ℚ × ℚ)
    (st : ZoomState) (mouse : ℚ × ℚ)
    (hmz : 1 ≤ cfg.maxZoom) (hw : 0 ≤ rs.1) (hh : 0 ≤ rs.2) :
    (∀ r, (zoomTick cfg ro rs st mouse).pushedRect = some r →
      regionContainsRect ro rs r) ∧
    ((zoomTick cfg ro rs st mouse).zoomedPan = true →
      |(zoomTick cfg ro rs st mouse).targetX - (zoomTick cfg ro rs st mouse).panTargetX| ≤
        9/10 * (rs.1 / (zoomTick cfg ro rs st mouse).currentZoom / 2) ∧
      |(zoomTick cfg ro rs st mouse).targetY - (zoomTick cfg ro rs st mouse).panTargetY| ≤
        9/10 * (rs.2 / (zoomTick cfg ro rs st mouse).currentZoom / 2)) := by
  have hcz : 1 ≤ (zoomTick cfg ro rs st mouse).currentZoom := by
    rw [zoomTick_currentZoom]
    exact (rclamp_bounds _ 1 cfg.maxZoom hmz).1
  have hcz0 : (0:ℚ) < (zoomTick cfg ro rs st mouse).currentZoom :=
    lt_of_lt_of_le one_pos hcz
  constructor
  · intro r hr
    rw [zoomTick_rect cfg ro rs st mouse r hr]
    exact computeRect_in_region ro rs _ _ _ _
      (div_le_self hw hcz) (div_le_self hh hcz)
  · intro hz
    obtain ⟨ex, ey⟩ := zoomTick_panTargets cfg ro rs st mouse hz
    rw [ex, ey]
    exact ⟨panTargetZoomed_margin _ _ _ (by positivity),
      panTargetZoomed_margin _ _ _ (by positivity)⟩

/-- Witness for the amended C3 at the counterexample tick: the pushed rect
is inside the region, and the pan targets respect the 10 %-margin bound
around the clamped cursor target. -/
theorem zoom_rect_in_region_and_target_margin_witness :
    regionContainsRect (0, 0) (1000, 1000) c3rect ∧
    (|c3out.targetX - c3out.panTargetX| ≤ 9/10 * (1000 / c3out.currentZoom / 2) ∧
     |c3out.targetY - c3out.panTargetY| ≤ 9/10 * (1000 / c3out.currentZoom / 2)) :=
  ⟨(zoom_rect_in_region_and_target_margin ZoomConfig.default (0, 0) (1000, 1000) c3st (10, 10)
      (by norm_num [ZoomConfig.default]) (by norm_num) (by norm_num)).1 c3rect
      (by norm_num [c3out, c3rect, c3st, zoomTick, updateTimers, targetZoomOf, Spring.stepN,
        Spring.step, rclamp, computeRect, panTargetZoomed, panTargetBlend, ZoomConfig.default,
        min_def, max_def, abs]),
   (zoom_rect_in_region_and_target_margin ZoomConfig.default (0, 0) (1000, 1000) c3st (10, 10)
      (by norm_num [ZoomConfig.default]) (by norm_num) (by norm_num)).2
      (by norm_num [c3out, c3st, zoomTick, updateTimers, targetZoomOf, Spring.stepN,
        Spring.step, rclamp, panTargetZoomed, panTargetBlend, ZoomConfig.default,
        min_def, max_def, abs])⟩

end Zureshot
